import Mathlib

/-!
Verification of the hotline core (`src/hotline.ts`): segment building,
speed color scale, and nearest-point-on-track lookup.

Embedding conventions:
* JavaScript numbers are modelled by an arbitrary `LinearOrderedField`
  with a `FloorRing` structure (instantiated at `ℚ` for concrete
  evaluation and at `ℝ` for the transcendental backend).  The model has
  no `NaN`/`Infinity` values, so `Number.isFinite` is constantly `true`
  (`jsIsFinite`), and the `Infinity` / `-Infinity` seeds of the running
  min/max accumulators are modelled by `Option` (`none` = never
  updated), which matches the source's final
  `if (!Number.isFinite(minS)) minS = 0` fix-up.
* `Math.cos`, `Math.sqrt` and `Math.PI` are collected in a `JsMath`
  backend record; `realJsMath` instantiates it with `Real.cos`,
  `Real.sqrt` and `Real.pi`.
* The string segment id  `i + "-" + s`  is modelled by the pair
  `(i, s) : Nat × Nat` and the grid key string `gx + "_" + gy` by the
  pair `(gx, gy) : Int × Int`; both string encodings are injective in
  the source, so nothing is lost.
* The JS object `Record<string, Segment[]>` is modelled as an
  insertion-ordered association list with unique keys, exactly how the
  source populates it.
-/

namespace Hotline

/-- `Point` from hotline.ts (lon, lat, speed km/h, timestamp ms). -/
structure Point (α : Type) where
  lon : α
  lat : α
  speed : α
  timestamp : α
deriving DecidableEq

/-- `Segment` from hotline.ts; `path` holds the start and end coordinate
pairs, `id` models the string id built from source index and sub-index. -/
structure Segment (α : Type) where
  id : Nat × Nat
  path : (α × α) × (α × α)
  speed : α
  timestamp : α
  speed0 : α
  speed1 : α
  time0 : α
  time1 : α
deriving DecidableEq

/-- The `initialViewState` record of `BuildResult`. -/
structure InitialViewState (α : Type) where
  longitude : α
  latitude : α
  zoom : α
  pitch : α
  bearing : α
deriving DecidableEq

/-- `Record<string, Segment[]>` keyed by grid cell, as an
insertion-ordered association list with unique keys. -/
abbrev GridIndex (α : Type) := List ((Int × Int) × List (Segment α))

/-- `BuildResult` from hotline.ts. -/
structure BuildResult (α : Type) where
  segments : List (Segment α)
  minSpeed : α
  maxSpeed : α
  initialViewState : InitialViewState α
  gridIndex : GridIndex α
  gridSize : α
deriving DecidableEq

/-- `NearestResult` from hotline.ts. -/
structure NearestResult (α : Type) where
  lon : α
  lat : α
  speed : α
  timestamp : α
  distMeters : α
deriving DecidableEq

/-- `BuildSegmentsOptions` from hotline.ts. -/
structure BuildSegmentsOptions (α : Type) where
  subdivisions : Nat
  minSpeedOverride : Option α
  maxSpeedOverride : Option α
deriving DecidableEq

variable {α : Type} [LinearOrderedField α] [FloorRing α]

/-- `const lerp = (a, b, t) => a + (b - a) * t`. -/
def lerp (a b t : α) : α := a + (b - a) * t

/-- `Number.isFinite`: constantly true in a model without non-finite
values. -/
def jsIsFinite (_ : α) : Bool := true

/-- One `Math.min` accumulation step against an accumulator seeded at
`Infinity` (`none`). -/
def jsMinAcc (acc : Option α) (x : α) : Option α :=
  some (acc.elim x fun m => min m x)

/-- One `Math.max` accumulation step against an accumulator seeded at
`-Infinity` (`none`). -/
def jsMaxAcc (acc : Option α) (x : α) : Option α :=
  some (acc.elim x fun m => max m x)

/-- The segment pushed for source pair index `i`, sub-interval `s` of
`n` subdivisions, between samples `a` and `b` (hotline.ts lines
155-183). -/
def mkSubSegment (i s n : Nat) (a b : Point α) : Segment α :=
  let t0 : α := (s : α) / (n : α)
  let t1 : α := ((s : α) + 1) / (n : α)
  let lon0 := lerp a.lon b.lon t0
  let lat0 := lerp a.lat b.lat t0
  let lon1 := lerp a.lon b.lon t1
  let lat1 := lerp a.lat b.lat t1
  let speed0 := lerp a.speed b.speed t0
  let speed1 := lerp a.speed b.speed t1
  let time0 := lerp a.timestamp b.timestamp t0
  let time1 := lerp a.timestamp b.timestamp t1
  ⟨(i, s), ((lon0, lat0), (lon1, lat1)), (speed0 + speed1) / 2,
    (time0 + time1) / 2, speed0, speed1, time0, time1⟩

/-- The double loop of hotline.ts lines 152-185: all consecutive sample
pairs, each split into `n` sub-segments. -/
def buildSegmentList (pts : List (Point α)) (n : Nat) : List (Segment α) :=
  ((pts.zip pts.tail).enum).flatMap fun p =>
    (List.range n).map fun s => mkSubSegment p.1 s n p.2.1 p.2.2

/-- Running minimum of the finite midpoint speeds (`minS`, seeded at
`Infinity`). -/
def observedMin (segs : List (Segment α)) : Option α :=
  segs.foldl (fun acc sg => if jsIsFinite sg.speed then jsMinAcc acc sg.speed else acc) none

/-- Running maximum of the finite midpoint speeds (`maxS`, seeded at
`-Infinity`). -/
def observedMax (segs : List (Segment α)) : Option α :=
  segs.foldl (fun acc sg => if jsIsFinite sg.speed then jsMaxAcc acc sg.speed else acc) none

/-- The fixed-threshold zoom ladder of hotline.ts lines 205-211 (the
last satisfied `span < x` assignment wins). -/
def zoomFor (span : α) : α :=
  if span < 0.025 then 10
  else if span < 0.05 then 9
  else if span < 0.1 then 8
  else if span < 0.2 then 7
  else if span < 0.4 then 6
  else if span < 0.8 then 5
  else 3

/-- Bounding-box initial view of hotline.ts lines 191-218, computed
over the original samples.  The `getD` defaults model the `Infinity`
seeds and are never reached for a nonempty sample list. -/
def initialViewOf (pts : List (Point α)) : InitialViewState α :=
  let minLon := (pts.foldl (fun acc p => jsMinAcc acc p.lon) none).getD 0
  let maxLon := (pts.foldl (fun acc p => jsMaxAcc acc p.lon) none).getD 0
  let minLat := (pts.foldl (fun acc p => jsMinAcc acc p.lat) none).getD 0
  let maxLat := (pts.foldl (fun acc p => jsMaxAcc acc p.lat) none).getD 0
  let span := max (maxLon - minLon) (maxLat - minLat)
  ⟨(minLon + maxLon) / 2, (minLat + maxLat) / 2, zoomFor span, 0, 0⟩

/-- Grid cell key of a segment's midpoint:
`floor(midLon/gridSize) + "_" + floor(midLat/gridSize)`. -/
def gridKeyOf (gridSize : α) (sg : Segment α) : Int × Int :=
  (⌊((sg.path.1.1 + sg.path.2.1) / 2) / gridSize⌋,
   ⌊((sg.path.1.2 + sg.path.2.2) / 2) / gridSize⌋)

/-- `(gridIndex[key] ||= []).push(s)`: append to the existing bucket,
or create a fresh bucket at the end. -/
def gridInsert : GridIndex α → Int × Int → Segment α → GridIndex α
  | [], k, sg => [(k, [sg])]
  | e :: rest, k, sg =>
    if e.1 = k then (e.1, e.2 ++ [sg]) :: rest else e :: gridInsert rest k sg

/-- The spatial grid index of hotline.ts lines 220-231. -/
def buildGridIndex (gridSize : α) (segs : List (Segment α)) : GridIndex α :=
  segs.foldl (fun gi sg => gridInsert gi (gridKeyOf gridSize sg) sg) []

/-- `buildSegments` from hotline.ts lines 128-241. -/
def buildSegments (pts : List (Point α)) (options : BuildSegmentsOptions α) :
    BuildResult α :=
  if pts.length < 2 then
    ⟨[], options.minSpeedOverride.getD 0, options.maxSpeedOverride.getD 1,
      ⟨0, 0, 2, 0, 0⟩, [], 0.05⟩
  else
    let segs := buildSegmentList pts options.subdivisions
    let minS : α := (observedMin segs).getD 0
    let maxS : α := (observedMax segs).getD 1
    let effMin := options.minSpeedOverride.getD minS
    let effMax := options.maxSpeedOverride.getD maxS
    let gridSize : α := 0.02
    ⟨segs, effMin, effMax, initialViewOf pts, buildGridIndex gridSize segs,
      gridSize⟩

/-- An RGB color triple.  The model feeds `createSpeedColorScale` with
already-parsed triples, i.e. the `Array.isArray` branch of
`parseColor`; hex-string parsing is an input-format concern orthogonal
to the scale's numeric behavior. -/
abbrev RGB (α : Type) := α × α × α

/-- An RGBA color quadruple. -/
abbrev RGBA (α : Type) := α × α × α × α

/-- The default stops `["#00aa00", "#ffff00", "#ffa500", "#ff0000"]`
after `parseColor`. -/
def defaultStops : List (RGB α) :=
  [(0, 170, 0), (255, 255, 0), (255, 165, 0), (255, 0, 0)]

/-- `Math.round`: round half towards positive infinity. -/
def jsRound (x : α) : α := ((⌊x + 1 / 2⌋ : Int) : α)

/-- `lerpColor` from hotline.ts lines 71-78. -/
def lerpColor (a b : RGB α) (t : α) : RGBA α :=
  (jsRound (lerp a.1 b.1 t), jsRound (lerp a.2.1 b.2.1 t),
   jsRound (lerp a.2.2 b.2.2 t), 255)

/-- `colors.length ? colors : defaults` of hotline.ts line 86. -/
def effStops (colors : List (RGB α)) : List (RGB α) :=
  if colors = [] then defaultStops else colors

/-- `createSpeedColorScale` from hotline.ts lines 80-105.  The
`(128, 128, 128)` defaults of `getD` model out-of-range indexing and
are unreachable. -/
def createSpeedColorScale (minSpeed maxSpeed : α) (colors : List (RGB α)) :
    α → RGBA α :=
  let stops := effStops colors
  let n := stops.length
  fun speed =>
    if !jsIsFinite speed then (128, 128, 128, 255)
    else
      let span := if maxSpeed - minSpeed = 0 then 1 else maxSpeed - minSpeed
      let u := max 0 (min 1 ((speed - minSpeed) / span))
      if n = 1 then
        let c := stops.getD 0 (128, 128, 128)
        (c.1, c.2.1, c.2.2, 255)
      else
        let scaled := u * ((n : α) - 1)
        let i := ⌊scaled⌋
        let t := scaled - (i : α)
        let c1 := stops.getD i.toNat (128, 128, 128)
        let c2 := stops.getD (min (i.toNat + 1) (n - 1)) (128, 128, 128)
        lerpColor c1 c2 t

/-- The mathematical backend used by the nearest-point query:
`Math.cos`, `Math.sqrt` and `Math.PI`. -/
structure JsMath (α : Type) where
  cos : α → α
  sqrt : α → α
  pi : α

/-- The real-number backend of the source. -/
noncomputable def realJsMath : JsMath ℝ := ⟨Real.cos, Real.sqrt, Real.pi⟩

/-- `metersPerDegree` from hotline.ts lines 244-249, returning
`(mPerDegLat, mPerDegLon)`. -/
def metersPerDegree (M : JsMath α) (lat : α) : α × α :=
  (111132.92 - 559.82 * M.cos (2 * lat) + 1.175 * M.cos (4 * lat),
   111412.84 * M.cos lat - 93.5 * M.cos (3 * lat))

/-- The segment-midpoint latitude in radians
(`((y1 + y2) / 2) * Math.PI / 180`). -/
def segMidLatRad (M : JsMath α) (s : Segment α) : α :=
  ((s.path.1.2 + s.path.2.2) / 2) * M.pi / 180

/-- `vx = (x2 - x1) * mPerDegLon`. -/
def segVx (M : JsMath α) (s : Segment α) : α :=
  (s.path.2.1 - s.path.1.1) * (metersPerDegree M (segMidLatRad M s)).2

/-- `vy = (y2 - y1) * mPerDegLat`. -/
def segVy (M : JsMath α) (s : Segment α) : α :=
  (s.path.2.2 - s.path.1.2) * (metersPerDegree M (segMidLatRad M s)).1

/-- `vx * vx + vy * vy` before the `|| 1` guard. -/
def rawVLen2 (M : JsMath α) (s : Segment α) : α :=
  segVx M s * segVx M s + segVy M s * segVy M s

/-- `const vLen2 = vx * vx + vy * vy || 1`: the JS `||` replaces a zero
squared length by 1. -/
def segVLen2 (M : JsMath α) (s : Segment α) : α :=
  if rawVLen2 M s = 0 then 1 else rawVLen2 M s

/-- The unclamped projection parameter
`t = -(ax * vx + ay * vy) / vLen2`. -/
def segT (M : JsMath α) (lon lat : α) (s : Segment α) : α :=
  let ax := (s.path.1.1 - lon) * (metersPerDegree M (segMidLatRad M s)).2
  let ay := (s.path.1.2 - lat) * (metersPerDegree M (segMidLatRad M s)).1
  let t := -(ax * segVx M s + ay * segVy M s) / segVLen2 M s
  t

/-- `t = Math.max(0, Math.min(1, t))`. -/
def segClampedT (M : JsMath α) (lon lat : α) (s : Segment α) : α :=
  max 0 (min 1 (segT M lon lat s))

/-- `const speed = s.speed0 + (s.speed1 - s.speed0) * t`. -/
def interpSpeed (s : Segment α) (t : α) : α :=
  s.speed0 + (s.speed1 - s.speed0) * t

/-- `const timestamp = s.time0 + (s.time1 - s.time0) * t`. -/
def interpTime (s : Segment α) (t : α) : α :=
  s.time0 + (s.time1 - s.time0) * t

/-- The per-segment candidate computed by the loop body of
`findNearestPointOnTrack` (hotline.ts lines 274-293). -/
def nearestCandidate (M : JsMath α) (lon lat : α) (s : Segment α) :
    NearestResult α :=
  let t := segClampedT M lon lat s
  let projLon := s.path.1.1 + (s.path.2.1 - s.path.1.1) * t
  let projLat := s.path.1.2 + (s.path.2.2 - s.path.1.2) * t
  let dx := (projLon - lon) * (metersPerDegree M (segMidLatRad M s)).2
  let dy := (projLat - lat) * (metersPerDegree M (segMidLatRad M s)).1
  ⟨projLon, projLat, interpSpeed s t, interpTime s t,
    M.sqrt (dx * dx + dy * dy)⟩

/-- Bucket lookup `gridIndex[key]`. -/
def gridLookup : GridIndex α → Int × Int → Option (List (Segment α))
  | [], _ => none
  | e :: rest, k => if e.1 = k then some e.2 else gridLookup rest k

/-- The segments gathered from the 3x3 block of grid cells around the
query point's cell (hotline.ts lines 261-270), in visit order, before
`Set` deduplication. -/
def neighborUnion (gi : GridIndex α) (gs : α) (lon lat : α) :
    List (Segment α) :=
  let gx := ⌊lon / gs⌋
  let gy := ⌊lat / gs⌋
  ([-1, 0, 1] : List Int).flatMap fun dx =>
    ([-1, 0, 1] : List Int).flatMap fun dy =>
      (gridLookup gi (gx + dx, gy + dy)).getD []

/-- One `Set.add` step: keep insertion order, drop duplicates. -/
def insertNew {β : Type} [DecidableEq β] (acc : List β) (x : β) : List β :=
  if x ∈ acc then acc else acc ++ [x]

/-- `Array.from(new Set(l))`: first occurrences in insertion order. -/
def jsSetOfList {β : Type} [DecidableEq β] (l : List β) : List β :=
  l.foldl insertNew []

/-- One iteration of the best-candidate loop
(`if (!best || dist < best.distMeters) best = ...`). -/
def stepBest (M : JsMath α) (lon lat : α) (best : Option (NearestResult α))
    (s : Segment α) : Option (NearestResult α) :=
  match best with
  | none => some (nearestCandidate M lon lat s)
  | some b =>
    if (nearestCandidate M lon lat s).distMeters < b.distMeters then
      some (nearestCandidate M lon lat s)
    else some b

/-- Candidate selection of hotline.ts lines 259-272.  `gridSize = 0` is
falsy in JS, so it disables the index branch; an empty 3x3 union falls
back to the full segment list. -/
def candidatesOf (gridIndex : Option (GridIndex α)) (gridSize : Option α)
    (lon lat : α) (segments : List (Segment α)) : List (Segment α) :=
  match gridIndex, gridSize with
  | some gi, some gs =>
    if gs = 0 then segments
    else
      let u := jsSetOfList (neighborUnion gi gs lon lat)
      if u = [] then segments else u
  | _, _ => segments

/-- `findNearestPointOnTrack` from hotline.ts lines 251-297. -/
def findNearestPointOnTrack (M : JsMath α) (lon lat : α)
    (segments : List (Segment α)) (gridIndex : Option (GridIndex α))
    (gridSize : Option α) : Option (NearestResult α) :=
  if segments = [] then none
  else (candidatesOf gridIndex gridSize lon lat segments).foldl
    (stepBest M lon lat) none

/-- A degenerate flat metric backend over the rationals, used to
instantiate the generic theorems on concrete computable inputs. -/
def flatJsMath : JsMath ℚ := ⟨fun _ => 1, fun x => x, 1⟩

/-- A concrete zero-length segment used by the C8 witness. -/
def degSegR : Segment ℝ := ⟨(0, 0), ((1, 2), (1, 2)), 7, 8, 1, 2, 3, 4⟩

/-- Concrete samples for the C3 witness. -/
def c3pts : List (Point ℚ) := [⟨0, 0, 0, 0⟩, ⟨1/100, 0, 10, 1000⟩]

/-- Concrete options for the C3 witness. -/
def c3opts : BuildSegmentsOptions ℚ := ⟨1, none, none⟩

/-- The single segment built from `c3pts` with one subdivision. -/
def c3seg : Segment ℚ := ⟨(0, 0), ((0, 0), (1/100, 0)), 5, 500, 0, 10, 0, 1000⟩

theorem length_buildSegmentList (pts : List (Point α)) (n : Nat) :
    (buildSegmentList pts n).length = (pts.length - 1) * n := by
  unfold buildSegmentList
  rw [List.length_flatMap]
  have hmap : List.map
      (List.length ∘ fun p : Nat × (Point α × Point α) =>
        (List.range n).map fun s => mkSubSegment p.1 s n p.2.1 p.2.2)
      ((pts.zip pts.tail).enum) =
      List.replicate ((pts.zip pts.tail).enum).length n := by
    rw [List.eq_replicate_iff]
    refine ⟨by simp, ?_⟩
    intro x hx
    rcases List.mem_map.mp hx with ⟨p, _, hp⟩
    simp [← hp]
  rw [hmap, List.sum_replicate, smul_eq_mul, List.enum_length,
    List.length_zip, List.length_tail]
  have : pts.length ⊓ (pts.length - 1) = pts.length - 1 := by omega
  rw [this]

/-- C1: for at least two samples and `subdivisions = n >= 1`,
`buildSegments` produces exactly `(samples.length - 1) * n` segments. -/
theorem c1_segment_count (pts : List (Point α)) (opts : BuildSegmentsOptions α)
    (h2 : 2 ≤ pts.length) (hn : 1 ≤ opts.subdivisions) :
    (buildSegments pts opts).segments.length =
      (pts.length - 1) * opts.subdivisions := by
  have hlt : ¬ pts.length < 2 := by omega
  rw [buildSegments, if_neg hlt]
  exact length_buildSegmentList pts opts.subdivisions

/-- Witness for C1 on a concrete two-sample build with two
subdivisions. -/
theorem c1_witness :
    (2 ≤ ([⟨0, 0, 0, 0⟩, ⟨1, 0, 10, 1000⟩] : List (Point ℚ)).length ∧
      1 ≤ (⟨2, none, none⟩ : BuildSegmentsOptions ℚ).subdivisions) ∧
    (buildSegments [⟨0, 0, 0, 0⟩, ⟨1, 0, 10, 1000⟩]
        (⟨2, none, none⟩ : BuildSegmentsOptions ℚ)).segments.length =
      (([⟨0, 0, 0, 0⟩, ⟨1, 0, 10, 1000⟩] : List (Point ℚ)).length - 1) *
        (⟨2, none, none⟩ : BuildSegmentsOptions ℚ).subdivisions :=
  ⟨⟨by decide, by decide⟩,
    c1_segment_count _ _ (by decide) (by decide)⟩

theorem flatMap_getElem?_of_uniform {β γ : Type} (l : List β) (f : β → List γ)
    (n : Nat) (hf : ∀ b, (f b).length = n) (i s : Nat) (hs : s < n) :
    (l.flatMap f)[i * n + s]? = l[i]?.bind fun b => (f b)[s]? := by
  induction l generalizing i with
  | nil => simp
  | cons b t ih =>
    rw [List.flatMap_cons]
    cases i with
    | zero =>
      have hlen : 0 * n + s < (f b).length := by rw [hf]; omega
      rw [List.getElem?_append, if_pos hlen]
      simp [Nat.zero_mul]
    | succ i =>
      have hle : (f b).length ≤ (i + 1) * n + s := by
        rw [hf]; calc n ≤ (i + 1) * n := Nat.le_mul_of_pos_left n (by omega)
          _ ≤ (i + 1) * n + s := Nat.le_add_right _ _
      rw [List.getElem?_append_right hle, hf]
      have harith : (i + 1) * n + s - n = i * n + s := by
        have : (i + 1) * n = i * n + n := by ring
        omega
      rw [harith, ih]
      simp

theorem mkSubSegment_continuity (i s n : Nat) (a b : Point α) :
    (mkSubSegment i s n a b).speed1 = (mkSubSegment i (s + 1) n a b).speed0 ∧
    (mkSubSegment i s n a b).time1 = (mkSubSegment i (s + 1) n a b).time0 ∧
    (mkSubSegment i s n a b).path.2 = (mkSubSegment i (s + 1) n a b).path.1 := by
  refine ⟨?_, ?_, ?_⟩ <;> simp only [mkSubSegment, lerp, Prod.mk.injEq] <;>
    push_cast <;> norm_num

theorem segments_getElem? (pts : List (Point α)) (opts : BuildSegmentsOptions α)
    (h2 : 2 ≤ pts.length) (i s : Nat) (hi : i < pts.length - 1)
    (hs : s < opts.subdivisions) :
    (buildSegments pts opts).segments[i * opts.subdivisions + s]? =
      some (mkSubSegment i s opts.subdivisions
        ((pts.zip pts.tail).get ⟨i, by
          rw [List.length_zip, List.length_tail]; omega⟩).1
        ((pts.zip pts.tail).get ⟨i, by
          rw [List.length_zip, List.length_tail]; omega⟩).2) := by
  have hlt : ¬ pts.length < 2 := by omega
  rw [buildSegments, if_neg hlt]
  show (buildSegmentList pts opts.subdivisions)[i * opts.subdivisions + s]? = _
  unfold buildSegmentList
  rw [flatMap_getElem?_of_uniform _ _ opts.subdivisions (by intro p; simp)
    i s hs]
  have hienum : i < (pts.zip pts.tail).enum.length := by
    rw [List.enum_length, List.length_zip, List.length_tail]; omega
  have hzip : i < (pts.zip pts.tail).length := by
    rw [List.length_zip, List.length_tail]; omega
  rw [List.getElem?_eq_getElem hienum]
  rw [List.getElem_enum]
  simp only [Option.bind_some, Option.some_bind]
  rw [List.getElem?_map, List.getElem?_range hs]
  rfl

/-- C2: adjacent segments produced from the same sample pair share
their boundary exactly: the first one's `speed1`, `time1` and end
coordinate equal the second one's `speed0`, `time0` and start
coordinate. -/
theorem c2_subdivision_continuity (pts : List (Point α))
    (opts : BuildSegmentsOptions α) (i s : Nat) (h2 : 2 ≤ pts.length)
    (hi : i < pts.length - 1) (hs : s + 1 < opts.subdivisions) :
    ∃ seg1 seg2,
      (buildSegments pts opts).segments[i * opts.subdivisions + s]? =
        some seg1 ∧
      (buildSegments pts opts).segments[i * opts.subdivisions + (s + 1)]? =
        some seg2 ∧
      seg1.speed1 = seg2.speed0 ∧ seg1.time1 = seg2.time0 ∧
      seg1.path.2 = seg2.path.1 := by
  refine ⟨_, _, segments_getElem? pts opts h2 i s hi (by omega),
    segments_getElem? pts opts h2 i (s + 1) hi (by omega), ?_⟩
  exact mkSubSegment_continuity i s opts.subdivisions _ _

/-- Witness for C2 on a concrete two-sample build with two
subdivisions. -/
theorem c2_witness :
    (2 ≤ ([⟨0, 0, 0, 0⟩, ⟨1, 0, 10, 1000⟩] : List (Point ℚ)).length ∧
      0 < ([⟨0, 0, 0, 0⟩, ⟨1, 0, 10, 1000⟩] : List (Point ℚ)).length - 1 ∧
      0 + 1 < (⟨2, none, none⟩ : BuildSegmentsOptions ℚ).subdivisions) ∧
    (∃ seg1 seg2,
      (buildSegments [⟨0, 0, 0, 0⟩, ⟨1, 0, 10, 1000⟩]
          (⟨2, none, none⟩ : BuildSegmentsOptions ℚ)).segments[
            0 * (⟨2, none, none⟩ : BuildSegmentsOptions ℚ).subdivisions + 0]? =
        some seg1 ∧
      (buildSegments [⟨0, 0, 0, 0⟩, ⟨1, 0, 10, 1000⟩]
          (⟨2, none, none⟩ : BuildSegmentsOptions ℚ)).segments[
            0 * (⟨2, none, none⟩ : BuildSegmentsOptions ℚ).subdivisions +
              (0 + 1)]? = some seg2 ∧
      seg1.speed1 = seg2.speed0 ∧ seg1.time1 = seg2.time0 ∧
      seg1.path.2 = seg2.path.1) :=
  ⟨⟨by decide, by decide, by decide⟩,
    c2_subdivision_continuity _ _ 0 0 (by decide) (by decide) (by decide)⟩

/-- C4: with fewer than two samples, `buildSegments` returns the
documented degenerate result: no segments, override-or-0 min,
override-or-1 max, the origin view at zoom 2, an empty grid index and
grid size 0.05. -/
theorem c4_degenerate_defaults (pts : List (Point α))
    (opts : BuildSegmentsOptions α) (h : pts.length < 2) :
    buildSegments pts opts =
      ⟨[], opts.minSpeedOverride.getD 0, opts.maxSpeedOverride.getD 1,
        ⟨0, 0, 2, 0, 0⟩, [], 0.05⟩ := by
  rw [buildSegments, if_pos h]

/-- Witness for C4 on the empty sample list with a min override. -/
theorem c4_witness :
    (([] : List (Point ℚ)).length < 2) ∧
    buildSegments ([] : List (Point ℚ)) ⟨3, some 7, none⟩ =
      ⟨[], (some (7 : ℚ)).getD 0, (none : Option ℚ).getD 1,
        ⟨0, 0, 2, 0, 0⟩, [], 0.05⟩ :=
  ⟨by decide, c4_degenerate_defaults _ _ (by decide)⟩

theorem observedMin_eq_foldl (segs : List (Segment α)) :
    observedMin segs = (segs.map (fun sg => sg.speed)).foldl jsMinAcc none := by
  unfold observedMin
  rw [List.foldl_map]
  congr 1

theorem observedMax_eq_foldl (segs : List (Segment α)) :
    observedMax segs = (segs.map (fun sg => sg.speed)).foldl jsMaxAcc none := by
  unfold observedMax
  rw [List.foldl_map]
  congr 1

theorem foldl_jsMinAcc_le_init (l : List α) :
    ∀ (a m : α), l.foldl jsMinAcc (some a) = some m → m ≤ a := by
  induction l with
  | nil => intro a m h; injection h with h; exact le_of_eq h.symm
  | cons x t ih =>
    intro a m h
    rw [List.foldl_cons] at h
    have hx : jsMinAcc (some a) x = some (min a x) := by
      simp [jsMinAcc, Option.elim]
    rw [hx] at h
    exact le_trans (ih (min a x) m h) (min_le_left a x)

theorem foldl_jsMaxAcc_init_le (l : List α) :
    ∀ (a m : α), l.foldl jsMaxAcc (some a) = some m → a ≤ m := by
  induction l with
  | nil => intro a m h; injection h with h; exact le_of_eq h
  | cons x t ih =>
    intro a m h
    rw [List.foldl_cons] at h
    have hx : jsMaxAcc (some a) x = some (max a x) := by
      simp [jsMaxAcc, Option.elim]
    rw [hx] at h
    exact le_trans (le_max_left a x) (ih (max a x) m h)

theorem foldl_jsMinAcc_le (l : List α) :
    ∀ (acc : Option α) (m : α), l.foldl jsMinAcc acc = some m →
      ∀ x ∈ l, m ≤ x := by
  induction l with
  | nil => intro acc m _ x hx; exact absurd hx (List.not_mem_nil x)
  | cons y t ih =>
    intro acc m h x hx
    rw [List.foldl_cons] at h
    rcases List.mem_cons.mp hx with hxy | hxt
    · subst hxy
      have hv : jsMinAcc acc x = some (acc.elim x fun w => min w x) := rfl
      rw [hv] at h
      refine le_trans (foldl_jsMinAcc_le_init t _ _ h) ?_
      cases acc with
      | none => exact le_refl x
      | some a => exact min_le_right a x
    · exact ih (jsMinAcc acc y) m h x hxt

theorem foldl_jsMaxAcc_ge (l : List α) :
    ∀ (acc : Option α) (m : α), l.foldl jsMaxAcc acc = some m →
      ∀ x ∈ l, x ≤ m := by
  induction l with
  | nil => intro acc m _ x hx; exact absurd hx (List.not_mem_nil x)
  | cons y t ih =>
    intro acc m h x hx
    rw [List.foldl_cons] at h
    rcases List.mem_cons.mp hx with hxy | hxt
    · subst hxy
      have hv : jsMaxAcc acc x = some (acc.elim x fun w => max w x) := rfl
      rw [hv] at h
      refine le_trans ?_ (foldl_jsMaxAcc_init_le t _ _ h)
      cases acc with
      | none => exact le_refl x
      | some a => exact le_max_right a x
    · exact ih (jsMaxAcc acc y) m h x hxt

theorem foldl_jsMinAcc_isSome (l : List α) :
    ∀ (a : α), ∃ m, l.foldl jsMinAcc (some a) = some m := by
  induction l with
  | nil => intro a; exact ⟨a, rfl⟩
  | cons x t ih =>
    intro a
    rw [List.foldl_cons]
    have hx : jsMinAcc (some a) x = some (min a x) := by
      simp [jsMinAcc, Option.elim]
    rw [hx]
    exact ih (min a x)

theorem foldl_jsMaxAcc_isSome (l : List α) :
    ∀ (a : α), ∃ m, l.foldl jsMaxAcc (some a) = some m := by
  induction l with
  | nil => intro a; exact ⟨a, rfl⟩
  | cons x t ih =>
    intro a
    rw [List.foldl_cons]
    have hx : jsMaxAcc (some a) x = some (max a x) := by
      simp [jsMaxAcc, Option.elim]
    rw [hx]
    exact ih (max a x)

theorem buildSegments_main (pts : List (Point α))
    (opts : BuildSegmentsOptions α) (h : ¬ pts.length < 2) :
    buildSegments pts opts =
      ⟨buildSegmentList pts opts.subdivisions,
        opts.minSpeedOverride.getD
          ((observedMin (buildSegmentList pts opts.subdivisions)).getD 0),
        opts.maxSpeedOverride.getD
          ((observedMax (buildSegmentList pts opts.subdivisions)).getD 1),
        initialViewOf pts,
        buildGridIndex 0.02 (buildSegmentList pts opts.subdivisions),
        0.02⟩ := by
  rw [buildSegments, if_neg h]

theorem zoomFor_ne_two (s : α) : zoomFor s ≠ 2 := by
  unfold zoomFor
  split_ifs <;> norm_num

/-- C5: without overrides, every built segment's midpoint speed lies
between the returned `minSpeed` and `maxSpeed`. -/
theorem c5_speed_bounds (pts : List (Point α)) (opts : BuildSegmentsOptions α)
    (h2 : 2 ≤ pts.length) (hn : 1 ≤ opts.subdivisions)
    (hmin : opts.minSpeedOverride = none)
    (hmax : opts.maxSpeedOverride = none) :
    ∀ sg ∈ (buildSegments pts opts).segments,
      (buildSegments pts opts).minSpeed ≤ sg.speed ∧
        sg.speed ≤ (buildSegments pts opts).maxSpeed := by
  intro sg hsg
  have hlt : ¬ pts.length < 2 := by omega
  rw [buildSegments_main pts opts hlt] at hsg
  have hsg' : sg ∈ buildSegmentList pts opts.subdivisions := hsg
  have hne : buildSegmentList pts opts.subdivisions ≠ [] :=
    List.ne_nil_of_length_pos (by
      rw [length_buildSegmentList]
      have : 1 ≤ pts.length - 1 := by omega
      exact Nat.mul_pos (by omega) (by omega))
  obtain ⟨y, t, hyt⟩ := List.exists_cons_of_ne_nil hne
  obtain ⟨m, hm⟩ : ∃ m, observedMin (buildSegmentList pts opts.subdivisions) =
      some m := by
    rw [observedMin_eq_foldl, hyt]
    simp only [List.map_cons, List.foldl_cons]
    exact foldl_jsMinAcc_isSome _ y.speed
  obtain ⟨w, hw⟩ : ∃ w, observedMax (buildSegmentList pts opts.subdivisions) =
      some w := by
    rw [observedMax_eq_foldl, hyt]
    simp only [List.map_cons, List.foldl_cons]
    exact foldl_jsMaxAcc_isSome _ y.speed
  simp only [buildSegments_main pts opts hlt, hmin, hmax, Option.getD_none,
    hm, hw, Option.getD_some]
  constructor
  · refine foldl_jsMinAcc_le _ none m ?_ sg.speed
      (List.mem_map_of_mem _ hsg')
    rw [← observedMin_eq_foldl]
    exact hm
  · refine foldl_jsMaxAcc_ge _ none w ?_ sg.speed
      (List.mem_map_of_mem _ hsg')
    rw [← observedMax_eq_foldl]
    exact hw

theorem twoPointBuild_segments :
    (buildSegments [⟨0, 0, 0, 0⟩, ⟨1, 0, 10, 1000⟩]
      (⟨2, none, none⟩ : BuildSegmentsOptions ℚ)).segments =
    [⟨(0, 0), ((0, 0), (1/2, 0)), 5/2, 250, 0, 5, 0, 500⟩,
     ⟨(0, 1), ((1/2, 0), (1, 0)), 15/2, 750, 5, 10, 500, 1000⟩] := by
  rw [buildSegments_main _ _ (by decide)]
  show buildSegmentList [⟨0, 0, 0, 0⟩, ⟨1, 0, 10, 1000⟩] 2 = _
  have hr : List.range 2 = [0, 1] := rfl
  simp [buildSegmentList, mkSubSegment, lerp, List.enum, List.enumFrom, hr]
  norm_num

/-- Witness for C5 on a concrete two-sample build with two
subdivisions, instantiated at its first segment. -/
theorem c5_witness :
    (2 ≤ ([⟨0, 0, 0, 0⟩, ⟨1, 0, 10, 1000⟩] : List (Point ℚ)).length ∧
      1 ≤ (⟨2, none, none⟩ : BuildSegmentsOptions ℚ).subdivisions ∧
      (⟨2, none, none⟩ : BuildSegmentsOptions ℚ).minSpeedOverride = none ∧
      (⟨2, none, none⟩ : BuildSegmentsOptions ℚ).maxSpeedOverride = none) ∧
    ((buildSegments [⟨0, 0, 0, 0⟩, ⟨1, 0, 10, 1000⟩]
        (⟨2, none, none⟩ : BuildSegmentsOptions ℚ)).minSpeed ≤
      (⟨(0, 0), ((0, 0), (1/2, 0)), 5/2, 250, 0, 5, 0, 500⟩ :
        Segment ℚ).speed ∧
      (⟨(0, 0), ((0, 0), (1/2, 0)), 5/2, 250, 0, 5, 0, 500⟩ :
        Segment ℚ).speed ≤
        (buildSegments [⟨0, 0, 0, 0⟩, ⟨1, 0, 10, 1000⟩]
          (⟨2, none, none⟩ : BuildSegmentsOptions ℚ)).maxSpeed) :=
  ⟨⟨by decide, by decide, by decide, by decide⟩,
    c5_speed_bounds _ _ (by decide) (by decide) (by decide) (by decide)
      _ (by rw [twoPointBuild_segments]; exact List.mem_cons_self _ _)⟩

/-- C10: at least two samples with `subdivisions = 0` still yield a
defined result: empty segments, min 0 and max 1 without overrides, and
the bounding-box initial view rather than the degenerate zoom-2
default. -/
theorem c10_zero_subdivisions (pts : List (Point α))
    (opts : BuildSegmentsOptions α) (h2 : 2 ≤ pts.length)
    (hsub : opts.subdivisions = 0) (hmin : opts.minSpeedOverride = none)
    (hmax : opts.maxSpeedOverride = none) :
    (buildSegments pts opts).segments = [] ∧
    (buildSegments pts opts).minSpeed = 0 ∧
    (buildSegments pts opts).maxSpeed = 1 ∧
    (buildSegments pts opts).initialViewState = initialViewOf pts ∧
    (buildSegments pts opts).initialViewState.zoom ≠ 2 := by
  have hlt : ¬ pts.length < 2 := by omega
  have hsegs : buildSegmentList pts opts.subdivisions = [] := by
    refine List.length_eq_zero.mp ?_
    rw [length_buildSegmentList, hsub, Nat.mul_zero]
  simp only [buildSegments_main pts opts hlt, hsegs, hmin, hmax,
    Option.getD_none]
  refine ⟨trivial, by rfl, by rfl, trivial, ?_⟩
  show zoomFor _ ≠ 2
  exact zoomFor_ne_two _

/-- Witness for C10 on a concrete two-sample build with zero
subdivisions. -/
theorem c10_witness :
    (2 ≤ ([⟨0, 0, 0, 0⟩, ⟨1, 0, 10, 1000⟩] : List (Point ℚ)).length ∧
      (⟨0, none, none⟩ : BuildSegmentsOptions ℚ).subdivisions = 0 ∧
      (⟨0, none, none⟩ : BuildSegmentsOptions ℚ).minSpeedOverride = none ∧
      (⟨0, none, none⟩ : BuildSegmentsOptions ℚ).maxSpeedOverride = none) ∧
    ((buildSegments [⟨0, 0, 0, 0⟩, ⟨1, 0, 10, 1000⟩]
        (⟨0, none, none⟩ : BuildSegmentsOptions ℚ)).segments = [] ∧
      (buildSegments [⟨0, 0, 0, 0⟩, ⟨1, 0, 10, 1000⟩]
        (⟨0, none, none⟩ : BuildSegmentsOptions ℚ)).minSpeed = 0 ∧
      (buildSegments [⟨0, 0, 0, 0⟩, ⟨1, 0, 10, 1000⟩]
        (⟨0, none, none⟩ : BuildSegmentsOptions ℚ)).maxSpeed = 1 ∧
      (buildSegments [⟨0, 0, 0, 0⟩, ⟨1, 0, 10, 1000⟩]
        (⟨0, none, none⟩ : BuildSegmentsOptions ℚ)).initialViewState =
        initialViewOf [⟨0, 0, 0, 0⟩, ⟨1, 0, 10, 1000⟩] ∧
      (buildSegments [⟨0, 0, 0, 0⟩, ⟨1, 0, 10, 1000⟩]
        (⟨0, none, none⟩ : BuildSegmentsOptions ℚ)).initialViewState.zoom ≠
        2) :=
  ⟨⟨by decide, by decide, by decide, by decide⟩,
    c10_zero_subdivisions _ _ (by decide) (by decide) (by decide)
      (by decide)⟩

theorem getD_mem {β : Type} {l : List β} {i : Nat} (h : i < l.length)
    (d : β) : l.getD i d ∈ l := by
  rw [List.getD_eq_getElem?_getD, List.getElem?_eq_getElem h,
    Option.getD_some]
  exact List.getElem_mem h

theorem lerp_zero (a b : α) : lerp a b 0 = a := by
  simp [lerp]

theorem lerp_one (a b : α) : lerp a b 1 = b := by
  simp [lerp]

theorem lerpColor_zero (a b : RGB α)
    (ha : jsRound a.1 = a.1 ∧ jsRound a.2.1 = a.2.1 ∧ jsRound a.2.2 = a.2.2) :
    lerpColor a b 0 = (a.1, a.2.1, a.2.2, 255) := by
  unfold lerpColor
  rw [lerp_zero, lerp_zero, lerp_zero, ha.1, ha.2.1, ha.2.2]

theorem effStops_ne_nil (colors : List (RGB α)) : effStops colors ≠ [] := by
  unfold effStops
  split_ifs with h
  · simp [defaultStops]
  · exact h

/-- C6 fails as stated when `minSpeed = maxSpeed`: the `|| 1` guard on
the zero-width domain sends `maxSpeed` to the FIRST stop, not the last
one.  Concretely, `scale(0, 0, [black, white])` evaluated at
`maxSpeed = 0` yields black. -/
theorem c6_counterexample :
    createSpeedColorScale (0 : ℚ) 0 [(0, 0, 0), (255, 255, 255)] 0 ≠
      (255, 255, 255, 255) := by
  have hstops : effStops [((0 : ℚ), 0, 0), (255, 255, 255)] =
      [((0 : ℚ), 0, 0), (255, 255, 255)] := by
    simp [effStops]
  have h : createSpeedColorScale (0 : ℚ) 0 [(0, 0, 0), (255, 255, 255)] 0 =
      (0, 0, 0, 255) := by
    simp only [createSpeedColorScale, hstops]
    norm_num [lerpColor, lerp, jsRound, jsIsFinite]
  rw [h]
  norm_num

/-- C6 (amended with `minSpeed ≠ maxSpeed`, stops with integer
channels): the scale at `minSpeed` yields the first effective stop and
at `maxSpeed` the last effective stop, each with alpha 255. -/
theorem c6_boundary_colors (minSpeed maxSpeed : α) (colors : List (RGB α))
    (hne : minSpeed ≠ maxSpeed)
    (hint : ∀ c ∈ effStops colors,
      jsRound c.1 = c.1 ∧ jsRound c.2.1 = c.2.1 ∧ jsRound c.2.2 = c.2.2) :
    createSpeedColorScale minSpeed maxSpeed colors minSpeed =
      (((effStops colors).getD 0 (128, 128, 128)).1,
       ((effStops colors).getD 0 (128, 128, 128)).2.1,
       ((effStops colors).getD 0 (128, 128, 128)).2.2, 255) ∧
    createSpeedColorScale minSpeed maxSpeed colors maxSpeed =
      (((effStops colors).getD ((effStops colors).length - 1)
          (128, 128, 128)).1,
       ((effStops colors).getD ((effStops colors).length - 1)
          (128, 128, 128)).2.1,
       ((effStops colors).getD ((effStops colors).length - 1)
          (128, 128, 128)).2.2, 255) := by
  have hlen : 0 < (effStops colors).length :=
    List.length_pos.mpr (effStops_ne_nil colors)
  have hsub : maxSpeed - minSpeed ≠ 0 := sub_ne_zero.mpr (Ne.symm hne)
  constructor
  · simp only [createSpeedColorScale, jsIsFinite, Bool.not_true,
      Bool.false_eq_true, if_false, sub_self, zero_div]
    rw [min_eq_right zero_le_one, max_self]
    split_ifs with h1
    · rfl
    · rw [zero_mul, Int.floor_zero, Int.toNat_zero, Int.cast_zero, sub_zero]
      exact lerpColor_zero _ _ (hint _ (getD_mem hlen _))
  · simp only [createSpeedColorScale, jsIsFinite, Bool.not_true,
      Bool.false_eq_true, if_false, if_neg hsub, div_self hsub]
    rw [min_self, max_eq_right zero_le_one]
    split_ifs with h1
    · have h0 : (effStops colors).length - 1 = 0 := by omega
      rw [h0]
    · rw [one_mul]
      have hcast : ((effStops colors).length : α) - 1 =
          (((((effStops colors).length : Int) - 1) : Int) : α) := by
        push_cast
        ring
      rw [hcast, Int.floor_intCast]
      have htn : (((effStops colors).length : Int) - 1).toNat =
          (effStops colors).length - 1 := by omega
      rw [htn]
      have hmin : min ((effStops colors).length - 1 + 1)
          ((effStops colors).length - 1) = (effStops colors).length - 1 :=
        Nat.min_eq_right (Nat.le_succ _)
      rw [hmin]
      rw [← hcast]
      rw [sub_self]
      exact lerpColor_zero _ _ (hint _ (getD_mem (by omega) _))

/-- Witness for C6 (amended) on `scale(0, 100, [black, white])`. -/
theorem c6_witness :
    (0 : ℚ) ≠ 100 ∧
    createSpeedColorScale (0 : ℚ) 100 [(0, 0, 0), (255, 255, 255)] 0 =
      (0, 0, 0, 255) ∧
    createSpeedColorScale (0 : ℚ) 100 [(0, 0, 0), (255, 255, 255)] 100 =
      (255, 255, 255, 255) := by
  have hint : ∀ c ∈ effStops [((0 : ℚ), 0, 0), (255, 255, 255)],
      jsRound c.1 = c.1 ∧ jsRound c.2.1 = c.2.1 ∧ jsRound c.2.2 = c.2.2 := by
    intro c hc
    rw [show effStops [((0 : ℚ), 0, 0), (255, 255, 255)] =
        [((0 : ℚ), 0, 0), (255, 255, 255)] from by simp [effStops]] at hc
    fin_cases hc <;> norm_num [jsRound]
  have h := c6_boundary_colors (0 : ℚ) 100 [(0, 0, 0), (255, 255, 255)]
    (by norm_num) hint
  refine ⟨by norm_num, ?_, ?_⟩
  · have h1 := h.1
    simpa [effStops] using h1
  · have h2 := h.2
    simpa [effStops] using h2

theorem stepBest_isSome (M : JsMath α) (lon lat : α) (b : NearestResult α)
    (s : Segment α) : ∃ c, stepBest M lon lat (some b) s = some c := by
  dsimp only [stepBest]
  split_ifs
  · exact ⟨_, rfl⟩
  · exact ⟨_, rfl⟩

theorem foldl_stepBest_isSome (M : JsMath α) (lon lat : α)
    (l : List (Segment α)) :
    ∀ b : NearestResult α, ∃ c,
      l.foldl (stepBest M lon lat) (some b) = some c := by
  induction l with
  | nil => intro b; exact ⟨b, rfl⟩
  | cons s t ih =>
    intro b
    rw [List.foldl_cons]
    obtain ⟨c, hc⟩ := stepBest_isSome M lon lat b s
    rw [hc]
    exact ih c

theorem candidatesOf_ne_nil (gi : Option (GridIndex α)) (gs : Option α)
    (lon lat : α) (segments : List (Segment α)) (h : segments ≠ []) :
    candidatesOf gi gs lon lat segments ≠ [] := by
  unfold candidatesOf
  cases gi with
  | none => exact h
  | some gi =>
    cases gs with
    | none => exact h
    | some gs =>
      dsimp only
      split_ifs with h1 h2
      · exact h
      · exact h
      · exact h2

/-- C7: `findNearestPointOnTrack` returns `none` exactly when the
segment list is empty; on any nonempty segment list it returns a
result. -/
theorem c7_none_iff_empty (lon lat : ℝ) (segments : List (Segment ℝ))
    (gridIndex : Option (GridIndex ℝ)) (gridSize : Option ℝ) :
    findNearestPointOnTrack realJsMath lon lat segments gridIndex gridSize =
      none ↔ segments = [] := by
  constructor
  · intro h
    by_contra hne
    rw [findNearestPointOnTrack, if_neg hne] at h
    have hc := candidatesOf_ne_nil gridIndex gridSize lon lat segments hne
    obtain ⟨c, t, hct⟩ := List.exists_cons_of_ne_nil hc
    rw [hct, List.foldl_cons] at h
    have hstep : stepBest realJsMath lon lat none c =
        some (nearestCandidate realJsMath lon lat c) := rfl
    rw [hstep] at h
    obtain ⟨d, hd⟩ := foldl_stepBest_isSome realJsMath lon lat t _
    rw [hd] at h
    exact Option.some_ne_none d h
  · intro h
    rw [h, findNearestPointOnTrack, if_pos rfl]

theorem degenerate_segment_general (M : JsMath α) (lon lat : α)
    (s : Segment α) (h : rawVLen2 M s = 0) :
    segVLen2 M s = 1 ∧ segT M lon lat s = 0 ∧
    segClampedT M lon lat s = 0 ∧
    (nearestCandidate M lon lat s).lon = s.path.1.1 ∧
    (nearestCandidate M lon lat s).lat = s.path.1.2 := by
  have h1 := (add_eq_zero_iff_of_nonneg (mul_self_nonneg (segVx M s))
    (mul_self_nonneg (segVy M s))).mp h
  have hvx : segVx M s = 0 := mul_self_eq_zero.mp h1.1
  have hvy : segVy M s = 0 := mul_self_eq_zero.mp h1.2
  have hlen : segVLen2 M s = 1 := by rw [segVLen2, if_pos h]
  have ht : segT M lon lat s = 0 := by
    unfold segT
    simp [hvx, hvy, hlen]
  have hct : segClampedT M lon lat s = 0 := by
    rw [segClampedT, ht, min_eq_right zero_le_one, max_self]
  refine ⟨hlen, ht, hct, ?_, ?_⟩
  · show s.path.1.1 + (s.path.2.1 - s.path.1.1) *
      segClampedT M lon lat s = s.path.1.1
    rw [hct, mul_zero, add_zero]
  · show s.path.1.2 + (s.path.2.2 - s.path.1.2) *
      segClampedT M lon lat s = s.path.1.2
    rw [hct, mul_zero, add_zero]

/-- C8: a segment whose endpoints coincide in the local metric space
(`vx*vx + vy*vy = 0`) gets denominator 1, projection parameter `t = 0`,
and collapses to its start point. -/
theorem c8_degenerate_segment (lon lat : ℝ) (s : Segment ℝ)
    (h : rawVLen2 realJsMath s = 0) :
    segVLen2 realJsMath s = 1 ∧ segT realJsMath lon lat s = 0 ∧
    segClampedT realJsMath lon lat s = 0 ∧
    (nearestCandidate realJsMath lon lat s).lon = s.path.1.1 ∧
    (nearestCandidate realJsMath lon lat s).lat = s.path.1.2 :=
  degenerate_segment_general realJsMath lon lat s h

/-- Witness for C8 on a concrete zero-length segment. -/
theorem c8_witness :
    rawVLen2 realJsMath degSegR = 0 ∧
    (segVLen2 realJsMath degSegR = 1 ∧ segT realJsMath 5 6 degSegR = 0 ∧
     segClampedT realJsMath 5 6 degSegR = 0 ∧
     (nearestCandidate realJsMath 5 6 degSegR).lon = degSegR.path.1.1 ∧
     (nearestCandidate realJsMath 5 6 degSegR).lat = degSegR.path.1.2) := by
  have h : rawVLen2 realJsMath degSegR = 0 := by
    norm_num [rawVLen2, segVx, segVy, degSegR]
  exact ⟨h, c8_degenerate_segment 5 6 degSegR h⟩

/-- C9: the interpolation used by the candidate loop reproduces the
stored endpoint speed and time exactly at `t = 0` and `t = 1`, and the
candidate record interpolates with exactly these functions at the
clamped projection parameter. -/
theorem c9_endpoint_interpolation (s : Segment ℝ) (lon lat : ℝ) :
    interpSpeed s 0 = s.speed0 ∧ interpSpeed s 1 = s.speed1 ∧
    interpTime s 0 = s.time0 ∧ interpTime s 1 = s.time1 ∧
    (nearestCandidate realJsMath lon lat s).speed =
      interpSpeed s (segClampedT realJsMath lon lat s) ∧
    (nearestCandidate realJsMath lon lat s).timestamp =
      interpTime s (segClampedT realJsMath lon lat s) := by
  refine ⟨?_, ?_, ?_, ?_, rfl, rfl⟩ <;> simp [interpSpeed, interpTime]

theorem foldl_stepBest_no_improve (M : JsMath α) (lon lat : α)
    (l : List (Segment α)) :
    ∀ b : NearestResult α,
      (∀ s ∈ l, ¬ (nearestCandidate M lon lat s).distMeters < b.distMeters) →
      l.foldl (stepBest M lon lat) (some b) = some b := by
  induction l with
  | nil => intro b _; rfl
  | cons s t ih =>
    intro b hb
    rw [List.foldl_cons]
    have hstep : stepBest M lon lat (some b) s = some b := by
      dsimp only [stepBest]
      rw [if_neg (hb s (List.mem_cons_self s t))]
    rw [hstep]
    exact ih b fun x hx => hb x (List.mem_cons_of_mem s hx)

theorem foldl_stepBest_strict (M : JsMath α) (lon lat : α)
    (l : List (Segment α)) (s0 : Segment α) :
    ∀ b : NearestResult α, s0 ∈ l →
      (∀ s ∈ l, s ≠ s0 → (nearestCandidate M lon lat s0).distMeters <
        (nearestCandidate M lon lat s).distMeters) →
      (nearestCandidate M lon lat s0).distMeters < b.distMeters →
      l.foldl (stepBest M lon lat) (some b) =
        some (nearestCandidate M lon lat s0) := by
  induction l with
  | nil => intro b h0 _ _; exact absurd h0 (List.not_mem_nil s0)
  | cons s t ih =>
    intro b h0 hmin hb
    rw [List.foldl_cons]
    by_cases hs : s = s0
    · subst hs
      have hstep : stepBest M lon lat (some b) s =
          some (nearestCandidate M lon lat s) := by
        dsimp only [stepBest]
        rw [if_pos hb]
      rw [hstep]
      apply foldl_stepBest_no_improve
      intro x hx
      by_cases hxs : x = s
      · subst hxs
        exact lt_irrefl _
      · exact lt_asymm (hmin x (List.mem_cons_of_mem s hx) hxs)
    · have hs0t : s0 ∈ t := by
        rcases List.mem_cons.mp h0 with h | h
        · exact absurd h.symm hs
        · exact h
      have hds : (nearestCandidate M lon lat s0).distMeters <
          (nearestCandidate M lon lat s).distMeters :=
        hmin s (List.mem_cons_self s t) hs
      have hmin' : ∀ x ∈ t, x ≠ s0 →
          (nearestCandidate M lon lat s0).distMeters <
            (nearestCandidate M lon lat x).distMeters :=
        fun x hx hxs0 => hmin x (List.mem_cons_of_mem s hx) hxs0
      dsimp only [stepBest]
      split_ifs with hlt
      · exact ih _ hs0t hmin' hds
      · exact ih _ hs0t hmin' hb

theorem foldl_stepBest_none_strict (M : JsMath α) (lon lat : α)
    (l : List (Segment α)) (s0 : Segment α) (h0 : s0 ∈ l)
    (hmin : ∀ s ∈ l, s ≠ s0 → (nearestCandidate M lon lat s0).distMeters <
      (nearestCandidate M lon lat s).distMeters) :
    l.foldl (stepBest M lon lat) none =
      some (nearestCandidate M lon lat s0) := by
  obtain ⟨c, t, hct⟩ := List.exists_cons_of_ne_nil (List.ne_nil_of_mem h0)
  subst hct
  rw [List.foldl_cons]
  have hstep : stepBest M lon lat none c =
      some (nearestCandidate M lon lat c) := rfl
  rw [hstep]
  by_cases hc : c = s0
  · subst hc
    apply foldl_stepBest_no_improve
    intro x hx
    by_cases hxc : x = c
    · subst hxc
      exact lt_irrefl _
    · exact lt_asymm (hmin x (List.mem_cons_of_mem c hx) hxc)
  · have hs0t : s0 ∈ t := by
      rcases List.mem_cons.mp h0 with h | h
      · exact absurd h.symm hc
      · exact h
    exact foldl_stepBest_strict M lon lat t s0 _ hs0t
      (fun x hx hxs0 => hmin x (List.mem_cons_of_mem c hx) hxs0)
      (hmin c (List.mem_cons_self c t) hc)

theorem mem_of_gridLookup (gi : GridIndex α) (k : Int × Int)
    (l : List (Segment α)) (h : gridLookup gi k = some l) (s : Segment α)
    (hs : s ∈ l) : ∃ e ∈ gi, s ∈ e.2 := by
  induction gi with
  | nil => exact absurd h (by simp [gridLookup])
  | cons e rest ih =>
    rw [gridLookup] at h
    split_ifs at h with hek
    · injection h with h
      subst h
      exact ⟨e, List.mem_cons_self e rest, hs⟩
    · obtain ⟨e1, he1, hse1⟩ := ih h
      exact ⟨e1, List.mem_cons_of_mem e he1, hse1⟩

theorem mem_gridInsert (gi : GridIndex α) (k : Int × Int) (sg : Segment α) :
    ∀ e ∈ gridInsert gi k sg, ∀ s ∈ e.2,
      (∃ e1 ∈ gi, s ∈ e1.2) ∨ s = sg := by
  induction gi with
  | nil =>
    intro e he s hs
    rw [gridInsert] at he
    rcases List.mem_singleton.mp he with rfl
    right
    exact List.mem_singleton.mp hs
  | cons e0 rest ih =>
    intro e he s hs
    rw [gridInsert] at he
    split_ifs at he with hk
    · rcases List.mem_cons.mp he with rfl | hrest
      · rcases List.mem_append.mp hs with h2 | h2
        · exact Or.inl ⟨e0, List.mem_cons_self e0 rest, h2⟩
        · right
          exact List.mem_singleton.mp h2
      · exact Or.inl ⟨e, List.mem_cons_of_mem e0 hrest, hs⟩
    · rcases List.mem_cons.mp he with heq | hrest
      · exact Or.inl ⟨e0, List.mem_cons_self e0 rest, heq ▸ hs⟩
      · rcases ih e hrest s hs with ⟨e1, he1, hse1⟩ | hsg
        · exact Or.inl ⟨e1, List.mem_cons_of_mem e0 he1, hse1⟩
        · exact Or.inr hsg

theorem mem_buildGridIndex_fold (gsz : α) (segs : List (Segment α)) :
    ∀ gi0 : GridIndex α,
      ∀ e ∈ segs.foldl (fun g sg => gridInsert g (gridKeyOf gsz sg) sg) gi0,
      ∀ s ∈ e.2, (∃ e1 ∈ gi0, s ∈ e1.2) ∨ s ∈ segs := by
  induction segs with
  | nil =>
    intro gi0 e he s hs
    exact Or.inl ⟨e, he, hs⟩
  | cons sg t ih =>
    intro gi0 e he s hs
    rw [List.foldl_cons] at he
    rcases ih _ e he s hs with h | h
    · obtain ⟨e1, he1, hse1⟩ := h
      rcases mem_gridInsert gi0 (gridKeyOf gsz sg) sg e1 he1 s hse1 with
        h2 | h2
      · exact Or.inl h2
      · right
        rw [h2]
        exact List.mem_cons_self sg t
    · right
      exact List.mem_cons_of_mem sg h

theorem mem_of_mem_bucket (gsz : α) (segs : List (Segment α)) :
    ∀ e ∈ buildGridIndex gsz segs, ∀ s ∈ e.2, s ∈ segs := by
  intro e he s hs
  rcases mem_buildGridIndex_fold gsz segs [] e he s hs with ⟨e1, he1, _⟩ | h
  · exact absurd he1 (List.not_mem_nil e1)
  · exact h

theorem mem_of_mem_neighborUnion (gi : GridIndex α) (gs lon lat : α)
    (s : Segment α) (hs : s ∈ neighborUnion gi gs lon lat) :
    ∃ e ∈ gi, s ∈ e.2 := by
  unfold neighborUnion at hs
  simp only [List.mem_flatMap] at hs
  obtain ⟨dx, _, dy, _, hmem⟩ := hs
  cases hlk : gridLookup gi (⌊lon / gs⌋ + dx, ⌊lat / gs⌋ + dy) with
  | none =>
    rw [hlk] at hmem
    exact absurd hmem (List.not_mem_nil s)
  | some l =>
    rw [hlk] at hmem
    exact mem_of_gridLookup gi _ l hlk s hmem

theorem mem_insertNew {β : Type} [DecidableEq β] (acc : List β) (x y : β) :
    y ∈ insertNew acc x ↔ y ∈ acc ∨ y = x := by
  unfold insertNew
  split_ifs with h
  · constructor
    · exact Or.inl
    · rintro (hy | rfl)
      · exact hy
      · exact h
  · simp [List.mem_append]

theorem mem_foldl_insertNew {β : Type} [DecidableEq β] (l : List β) :
    ∀ (acc : List β) (y : β),
      y ∈ l.foldl insertNew acc ↔ y ∈ acc ∨ y ∈ l := by
  induction l with
  | nil => simp
  | cons x t ih =>
    intro acc y
    rw [List.foldl_cons, ih, mem_insertNew, List.mem_cons]
    tauto

theorem mem_jsSetOfList {β : Type} [DecidableEq β] (l : List β) (y : β) :
    y ∈ jsSetOfList l ↔ y ∈ l := by
  unfold jsSetOfList
  rw [mem_foldl_insertNew]
  simp

/-- C3: on a build's segments, querying with the build's grid index and
grid size returns exactly what the index-free full scan returns,
whenever the query point's strictly nearest segment lies in the 3x3
block of grid cells around its cell.  Proven for every metric backend
`M`, in particular for `realJsMath`. -/
theorem c3_index_refines_full_scan (M : JsMath α) (pts : List (Point α))
    (opts : BuildSegmentsOptions α) (lon lat : α)
    (hne : (buildSegments pts opts).segments ≠ [])
    (hnear : ∃ s0 ∈ neighborUnion (buildSegments pts opts).gridIndex
        (buildSegments pts opts).gridSize lon lat,
      ∀ s ∈ (buildSegments pts opts).segments, s ≠ s0 →
        (nearestCandidate M lon lat s0).distMeters <
          (nearestCandidate M lon lat s).distMeters) :
    findNearestPointOnTrack M lon lat (buildSegments pts opts).segments
        (some (buildSegments pts opts).gridIndex)
        (some (buildSegments pts opts).gridSize) =
      findNearestPointOnTrack M lon lat (buildSegments pts opts).segments
        none none := by
  have hlen2 : ¬ pts.length < 2 := by
    intro hlt
    apply hne
    rw [buildSegments, if_pos hlt]
  have hmain := buildSegments_main pts opts hlen2
  simp only [hmain] at hne hnear ⊢
  obtain ⟨s0, hs0u, hs0min⟩ := hnear
  have hgs0 : (0.02 : α) ≠ 0 := by norm_num
  have hsub : ∀ s, s ∈ neighborUnion
      (buildGridIndex 0.02 (buildSegmentList pts opts.subdivisions))
      0.02 lon lat → s ∈ buildSegmentList pts opts.subdivisions := by
    intro s hs
    obtain ⟨e, he, hse⟩ := mem_of_mem_neighborUnion _ _ _ _ s hs
    exact mem_of_mem_bucket _ _ e he s hse
  have hs0segs : s0 ∈ buildSegmentList pts opts.subdivisions := hsub s0 hs0u
  have hu_ne : jsSetOfList (neighborUnion
      (buildGridIndex 0.02 (buildSegmentList pts opts.subdivisions))
      0.02 lon lat) ≠ [] := by
    intro hu
    have hm : s0 ∈ jsSetOfList (neighborUnion
        (buildGridIndex 0.02 (buildSegmentList pts opts.subdivisions))
        0.02 lon lat) := (mem_jsSetOfList _ _).mpr hs0u
    rw [hu] at hm
    exact List.not_mem_nil s0 hm
  rw [findNearestPointOnTrack, findNearestPointOnTrack, if_neg hne,
    if_neg hne]
  have hcand_none : candidatesOf (none : Option (GridIndex α)) none lon lat
      (buildSegmentList pts opts.subdivisions) =
      buildSegmentList pts opts.subdivisions := rfl
  have hcand_some : candidatesOf
      (some (buildGridIndex 0.02 (buildSegmentList pts opts.subdivisions)))
      (some (0.02 : α)) lon lat (buildSegmentList pts opts.subdivisions) =
      jsSetOfList (neighborUnion
        (buildGridIndex 0.02 (buildSegmentList pts opts.subdivisions))
        0.02 lon lat) := by
    unfold candidatesOf
    dsimp only
    rw [if_neg hgs0, if_neg hu_ne]
  rw [hcand_none, hcand_some]
  rw [foldl_stepBest_none_strict M lon lat _ s0
    ((mem_jsSetOfList _ _).mpr hs0u)
    (fun s hs hss0 => hs0min s (hsub s ((mem_jsSetOfList _ _).mp hs)) hss0)]
  rw [foldl_stepBest_none_strict M lon lat
    (buildSegmentList pts opts.subdivisions) s0 hs0segs hs0min]

theorem c3w_seglist : buildSegmentList c3pts 1 = [c3seg] := by
  have hr : List.range 1 = [0] := rfl
  simp [buildSegmentList, mkSubSegment, lerp, List.enum, List.enumFrom, hr,
    c3pts, c3seg]
  norm_num

theorem c3w_segments : (buildSegments c3pts c3opts).segments = [c3seg] := by
  rw [buildSegments_main c3pts c3opts (by decide)]
  show buildSegmentList c3pts 1 = [c3seg]
  exact c3w_seglist

theorem c3w_gridIndex :
    (buildSegments c3pts c3opts).gridIndex = [((0, 0), [c3seg])] := by
  rw [buildSegments_main c3pts c3opts (by decide)]
  show buildGridIndex (0.02 : ℚ) (buildSegmentList c3pts 1) =
    [((0, 0), [c3seg])]
  rw [c3w_seglist]
  show gridInsert [] (gridKeyOf 0.02 c3seg) c3seg = [((0, 0), [c3seg])]
  rw [gridInsert]
  have hk : gridKeyOf (0.02 : ℚ) c3seg = (0, 0) := by
    unfold gridKeyOf c3seg
    norm_num [Prod.ext_iff]
  rw [hk]

theorem c3w_gridSize : (buildSegments c3pts c3opts).gridSize = (0.02 : ℚ) := by
  rw [buildSegments_main c3pts c3opts (by decide)]

theorem c3w_union :
    neighborUnion [((0, 0), [c3seg])] (0.02 : ℚ) 0 0 = [c3seg] := by
  have hfloor : ⌊(0 : ℚ) / (0.02 : ℚ)⌋ = 0 := by norm_num
  simp [neighborUnion, hfloor, gridLookup, Prod.ext_iff]

/-- Witness for C3 on a concrete one-segment build over the rationals
with the flat metric backend. -/
theorem c3_witness :
    ((buildSegments c3pts c3opts).segments ≠ [] ∧
     ∃ s0 ∈ neighborUnion (buildSegments c3pts c3opts).gridIndex
         (buildSegments c3pts c3opts).gridSize 0 0,
       ∀ s ∈ (buildSegments c3pts c3opts).segments, s ≠ s0 →
         (nearestCandidate flatJsMath 0 0 s0).distMeters <
           (nearestCandidate flatJsMath 0 0 s).distMeters) ∧
    findNearestPointOnTrack flatJsMath 0 0
        (buildSegments c3pts c3opts).segments
        (some (buildSegments c3pts c3opts).gridIndex)
        (some (buildSegments c3pts c3opts).gridSize) =
      findNearestPointOnTrack flatJsMath 0 0
        (buildSegments c3pts c3opts).segments none none := by
  have h1 : (buildSegments c3pts c3opts).segments ≠ [] := by
    rw [c3w_segments]
    simp
  have h2 : ∃ s0 ∈ neighborUnion (buildSegments c3pts c3opts).gridIndex
      (buildSegments c3pts c3opts).gridSize 0 0,
      ∀ s ∈ (buildSegments c3pts c3opts).segments, s ≠ s0 →
        (nearestCandidate flatJsMath 0 0 s0).distMeters <
          (nearestCandidate flatJsMath 0 0 s).distMeters := by
    refine ⟨c3seg, ?_, ?_⟩
    · rw [c3w_gridIndex, c3w_gridSize, c3w_union]
      exact List.mem_singleton.mpr rfl
    · intro s hs hne1
      rw [c3w_segments] at hs
      exact absurd (List.mem_singleton.mp hs) hne1
  exact ⟨⟨h1, h2⟩,
    c3_index_refines_full_scan flatJsMath c3pts c3opts 0 0 h1 h2⟩

end Hotline
